import Mathlib

/-!
Verification of the configuration-to-trigger binding model of the
game-sampler music player (`music_player.py`).

The Python source is shallowly embedded below:
* `Song` mirrors the `Song` namedtuple (fields `filepath`, `title`,
  `artist`, `timecode`, `key`, `category`);
* `processSection` / `loadSections` / `loadSongConfigs` embed
  `MusicPlayer._load_song_configs`, with the filesystem abstracted as an
  `Env` of `isFile` / `isDir` predicates and the parsed INI content as a
  list of sections (configparser interpolation and key case-folding are
  not exercised by any claim and are not modelled);
* `playAttempts` embeds the recursion structure of `MusicPlayer._play`
  (each list element records whether one pygame load+play attempt raises);
* `playRandom` / `playRandomStep` embed `MusicPlayer._play_random`
  (`random.randint` is modelled nondeterministically through a draw `k`;
  Python's `randint(0, -1)` raises `ValueError`);
* `buildCats` / `bucket` embed the category-dictionary construction in
  `MusicPlayer._setup_ui` (a Python dict as an association list, insertion
  ordered, first-occurrence key positions);
* `selectorBindings` embeds the `root.bind(f'{n+1}', ...)` loop of
  `MusicPlayer._setup_ui`.
-/

namespace MPlayer

/-- The `Song` namedtuple of `music_player.py`. `timecode` is a Python
`int` (configparser `getint`), hence `Int`. -/
structure Song where
  filepath : String
  title : String
  artist : String
  timecode : Int
  key : String
  category : String
deriving DecidableEq, Repr

/-- Abstraction of the filesystem seen by `os.path.isfile` / `os.path.isdir`. -/
structure Env where
  isFile : String → Bool
  isDir : String → Bool

/-- One INI section as parsed by `configparser`: its name and its
option/value pairs. -/
structure SectionData where
  name : String
  options : List (String × String)
deriving DecidableEq, Repr

/-- `config.get(section, key)`: first matching option, if any. -/
def getOpt (s : SectionData) (k : String) : Option String :=
  (s.options.find? (fun p => p.1 == k)).map (fun p => p.2)

/-- Python `str.strip('"')`: drop every leading and trailing `"` character. -/
def stripQuotes (s : String) : String :=
  String.mk (((s.toList.dropWhile (fun c => c = '"')).reverse.dropWhile
    (fun c => c = '"')).reverse)

/-- `os.path.join(music_dir, filename)` for a relative filename. -/
def pathJoin (a b : String) : String := a ++ "/" ++ b

/-- Python `str.lower()` (ASCII case folding suffices here). -/
def strToLower (s : String) : String := String.mk (s.toList.map Char.toLower)

/-- Python `str.endswith(t)`. -/
def strEndsWith (s t : String) : Bool := t.toList.isSuffixOf s.toList

/-- Decimal digits to a number, `none` when empty or non-digit. -/
def pyNat (cs : List Char) : Option Nat :=
  if cs.isEmpty then none
  else if cs.all Char.isDigit then
    some (cs.foldl (fun a c => a * 10 + (c.toNat - 48)) 0)
  else none

/-- Python `int(str)` as used by `configparser.getint`: an optional sign
followed by decimal digits (raising `ValueError`, i.e. `none`, otherwise). -/
def pyInt (v : String) : Option Int :=
  match v.toList with
  | '-' :: rest => (pyNat rest).map (fun n => -(n : Int))
  | '+' :: rest => (pyNat rest).map (fun n => (n : Int))
  | cs => (pyNat cs).map (fun n => (n : Int))

/-- The reserved-key list of line 66:
`['<space>', '1', '2', '3', '4', '5', '6', '7', '8', '9']`. -/
def reservedKeys : List String :=
  ["<space>", "1", "2", "3", "4", "5", "6", "7", "8", "9"]

/-- The exceptions `_load_song_configs` can raise. -/
inductive LoadError where
  /-- `FileNotFoundError` (missing config file or missing asset file). -/
  | fileNotFound (path : String)
  /-- `ValueError('Given config file must be an INI file')`. -/
  | valueErrorIni
  /-- `NotADirectoryError`. -/
  | notADirectory (dir : String)
  /-- `configparser.NoOptionError` from `config.get` without fallback. -/
  | missingOption (sec : String) (key : String)
  /-- `ValueError` from `int()` inside `config.getint`. -/
  | intParse (sec : String)
  /-- `ValueError('Key ... is reserved for stop/categories')`. -/
  | reservedKey (k : String)
deriving DecidableEq, Repr

/-- The loop body of `_load_song_configs` for one section, lines 54-68:
get `filename` (no fallback), check the joined path is a file, build the
`Song` (getting `title` with no fallback, then `artist`, `timecode`,
`key`, `category` with fallbacks, stripping quotes), then reject reserved
keys. Evaluation order of the errors follows the Python argument order. -/
def processSection (env : Env) (md : String) (s : SectionData) :
    Except LoadError Song :=
  match getOpt s "filename" with
  | none => .error (.missingOption s.name "filename")
  | some filename =>
    let filepath := pathJoin md filename
    if env.isFile filepath = false then .error (.fileNotFound filepath)
    else
      match getOpt s "title" with
      | none => .error (.missingOption s.name "title")
      | some title =>
        match (match getOpt s "timecode" with
               | none => some (0 : Int)
               | some v => pyInt v) with
        | none => .error (.intParse s.name)
        | some tc =>
          let song : Song :=
            { filepath := filepath
              title := stripQuotes title
              artist := stripQuotes ((getOpt s "artist").getD "Unknown Artist")
              timecode := tc
              key := stripQuotes ((getOpt s "key").getD "")
              category := stripQuotes ((getOpt s "category").getD "") }
          if song.key ∈ reservedKeys then .error (.reservedKey song.key)
          else .ok song

/-- The `for section in config.sections()` loop: the accumulated list is
abandoned as soon as any section raises (Python exception semantics). -/
def loadSections (env : Env) (md : String) :
    List SectionData → Except LoadError (List Song)
  | [] => .ok []
  | s :: rest =>
    match processSection env md s with
    | .error e => .error e
    | .ok song =>
      match loadSections env md rest with
      | .error e => .error e
      | .ok songs => .ok (song :: songs)

/-- `MusicPlayer._load_song_configs(config_file, music_dir)`: the three
up-front checks of lines 43-48, then the section loop. The parsed INI
content is passed explicitly as `cfg`. -/
def loadSongConfigs (env : Env) (configFile musicDir : String)
    (cfg : List SectionData) : Except LoadError (List Song) :=
  if env.isFile configFile = false then .error (.fileNotFound configFile)
  else if strEndsWith (strToLower configFile) ".ini" = false then
    .error .valueErrorIni
  else if env.isDir musicDir = false then .error (.notADirectory musicDir)
  else loadSections env musicDir cfg

/-- The Track a section should load to, stated directly from the spec's
field rules (§3/§6): defaults `Unknown Artist`, timecode 0, empty key and
category, quotes stripped. Compared against `processSection` by theorem. -/
def songOfSection (md : String) (s : SectionData) : Song :=
  { filepath := pathJoin md ((getOpt s "filename").getD "")
    title := stripQuotes ((getOpt s "title").getD "")
    artist := stripQuotes ((getOpt s "artist").getD "Unknown Artist")
    timecode := ((pyInt ((getOpt s "timecode").getD "0")).getD 0)
    key := stripQuotes ((getOpt s "key").getD "")
    category := stripQuotes ((getOpt s "category").getD "") }

/-- The checks `_load_song_configs` actually performs on one section. -/
def sectionValid (env : Env) (md : String) (s : SectionData) : Bool :=
  (getOpt s "filename").isSome &&
  env.isFile (pathJoin md ((getOpt s "filename").getD "")) &&
  (getOpt s "title").isSome &&
  (match getOpt s "timecode" with
   | none => true
   | some v => (pyInt v).isSome) &&
  !(reservedKeys.contains (stripQuotes ((getOpt s "key").getD "")))

/-- The hotkey a section's entry would carry after parsing. -/
def trackKey (s : SectionData) : String :=
  stripQuotes ((getOpt s "key").getD "")

/-- The recursion structure of `MusicPlayer._play` (lines 71-79): each
element of the list records whether one `pygame.mixer.music.load`+`play`
attempt raises `pygame.error` (`false`) or succeeds (`true`); on a raise
the code calls `pygame.init()` and recurses.  The result is the index of
the succeeding attempt, or `none` when every attempt in the trace fails
(the code is then still recursing). -/
def playAttempts : List Bool → Option Nat
  | [] => none
  | b :: rest => if b then some 0 else (playAttempts rest).map (fun n => n + 1)

/-- Exceptions `_play_random` can raise before reaching `_play`. -/
inductive PyError where
  /-- `ValueError` from `random.randint` on an empty range. -/
  | valueError
  /-- `IndexError` from list indexing (never actually reached). -/
  | indexError
deriving DecidableEq, Repr

/-- `random.randint(a, b)`: raises `ValueError` when `b < a`, otherwise
returns a value in `[a, b]`; the RNG draw is modelled by `k`. -/
def randint (k : Nat) (a b : Int) : Except PyError Int :=
  if b < a then .error .valueError else .ok (a + (k : Int) % (b - a + 1))

/-- Lines 84-85: `if category != 'all': songs = [s for s in songs if
s.category == category]`. -/
def filterByCategory (songs : List Song) (category : String) : List Song :=
  if category == "all" then songs
  else songs.filter (fun s => s.category == category)

/-- `MusicPlayer._play_random(songs, category)` up to the hand-off of the
chosen song to `_play`: filter, `randint(0, len(songs)-1)`, index. -/
def playRandom (k : Nat) (songs : List Song) (category : String) :
    Except PyError Song :=
  let filtered := filterByCategory songs category
  match randint k 0 ((filtered.length : Int) - 1) with
  | .error e => .error e
  | .ok i =>
    match filtered.get? i.toNat with
    | some s => .ok s
    | none => .error .indexError

/-- The Playback State of the spec: `currentlyLoadedPath` and `isPlaying`. -/
structure PlaybackState where
  loaded : Option String
  playing : Bool
deriving DecidableEq, Repr

/-- `_play_random` acting on the Playback State: when the selection raises,
the exception propagates before `_play` is called, so the state is
untouched; when a song is selected, `_play`'s eventual successful
load+play makes it the loaded, playing asset. -/
def playRandomStep (k : Nat) (songs : List Song) (category : String)
    (st : PlaybackState) : PlaybackState × Except PyError Song :=
  match playRandom k songs category with
  | .error e => (st, .error e)
  | .ok s => ({ loaded := some s.filepath, playing := true }, .ok s)

/-- First-occurrence deduplication, as a Python dict comprehension orders
its keys. -/
def firstDedup (l : List String) : List String :=
  l.foldl (fun acc a => if a ∈ acc then acc else acc ++ [a]) []

/-- Key order of the `categories` dict of lines 102-103: the distinct
non-empty categories in first-occurrence order, then `'all'` (which keeps
its earlier position if some song's category is literally `'all'`). -/
def catKeys (songs : List Song) : List String :=
  let ks := firstDedup (songs.filterMap
    (fun s => if s.category = "" then none else some s.category))
  if "all" ∈ ks then ks else ks ++ ["all"]

/-- `m[k].append(s)` on the dict modelled as an association list. -/
def appendAt (m : List (String × List Song)) (k : String) (s : Song) :
    List (String × List Song) :=
  m.map (fun p => if p.1 = k then (p.1, p.2 ++ [s]) else p)

/-- One iteration of the loop of lines 120-125 (the hotkey bind on line
122 does not touch the dict): append to the song's own category bucket
when non-empty, then always append to the `'all'` bucket. -/
def catStep (m : List (String × List Song)) (s : Song) :
    List (String × List Song) :=
  appendAt (if s.category = "" then m else appendAt m s.category s) "all" s

/-- The fully built `categories` dict of `_setup_ui`. -/
def buildCats (songs : List Song) : List (String × List Song) :=
  songs.foldl catStep ((catKeys songs).map (fun k => (k, ([] : List Song))))

/-- Python dict lookup on the association-list model. -/
def dictGet : List (String × List Song) → String → Option (List Song)
  | [], _ => none
  | p :: rest, c => if p.1 = c then some p.2 else dictGet rest c

/-- The bucket of one category in the built Category Index. -/
def bucket (songs : List Song) (c : String) : List Song :=
  (dictGet (buildCats songs) c).getD []

/-- What the `'all'` bucket actually receives per song: twice for a song
whose own category is literally `'all'`, once otherwise. -/
def dupIfAll (s : Song) : List Song :=
  if s.category = "all" then [s, s] else [s]

/-- Concatenation of `dupIfAll` over the roster. -/
def allExpected : List Song → List Song
  | [] => []
  | s :: rest => dupIfAll s ++ allExpected rest

/-- The `root.bind(f'{n+1}', ... _play_random(songs, category))` loop of
lines 127-148: one (token, category) pair per dict key, token
`str(n+1)`, no cap. -/
def selectorBindings (songs : List Song) : List (String × String) :=
  (catKeys songs).enum.map (fun p => (toString (p.1 + 1), p.2))

end MPlayer

namespace MPlayer

/-! ### Loader lemmas -/

theorem processSection_valid (env : Env) (md : String) (s : SectionData)
    (h : sectionValid env md s = true) :
    processSection env md s = .ok (songOfSection md s) := by
  unfold sectionValid at h
  simp only [Bool.and_eq_true, Bool.not_eq_true'] at h
  obtain ⟨⟨⟨⟨h1, h2⟩, h3⟩, h4⟩, h5⟩ := h
  rcases hf : getOpt s "filename" with _ | f
  · rw [hf] at h1; simp at h1
  · rcases ht : getOpt s "title" with _ | t
    · rw [ht] at h3; simp at h3
    · rw [hf] at h2
      simp only [Option.getD_some] at h2
      have h5' : stripQuotes ((getOpt s "key").getD "") ∉ reservedKeys := by
        intro hmem
        rw [List.contains_eq_any_beq] at h5
        simp only [List.any_eq_false, beq_iff_eq] at h5
        exact h5 _ hmem rfl
      rcases htc : getOpt s "timecode" with _ | v
      · simp [processSection, songOfSection, hf, ht, htc, h2, h5']
        rfl
      · rw [htc] at h4
        change (pyInt v).isSome = true at h4
        rcases hv : pyInt v with _ | n
        · rw [hv] at h4; simp at h4
        · simp [processSection, songOfSection, hf, ht, htc, hv, h2, h5']

theorem loadSections_of_ok (env : Env) (md : String) :
    ∀ l : List SectionData,
      (∀ s ∈ l, processSection env md s = .ok (songOfSection md s)) →
      loadSections env md l = .ok (l.map (songOfSection md)) := by
  intro l
  induction l with
  | nil => intro _; rfl
  | cons s rest ih =>
    intro h
    have hs := h s (by simp)
    have hrest := ih (fun x hx => h x (by simp [hx]))
    simp [loadSections, hs, hrest]

theorem loadSections_err (env : Env) (md : String) :
    ∀ l : List SectionData,
      (∃ s ∈ l, ∀ song, processSection env md s ≠ .ok song) →
      ∃ e, loadSections env md l = .error e := by
  intro l
  induction l with
  | nil => rintro ⟨s, hs, _⟩; simp at hs
  | cons s rest ih =>
    rintro ⟨x, hx, hfail⟩
    rcases hps : processSection env md s with e | song
    · exact ⟨e, by simp [loadSections, hps]⟩
    · rcases List.mem_cons.mp hx with rfl | hx'
      · exact absurd hps (hfail song)
      · obtain ⟨e, he⟩ := ih ⟨x, hx', hfail⟩
        exact ⟨e, by simp [loadSections, hps, he]⟩

theorem loadSections_ok_mem (env : Env) (md : String) :
    ∀ (l : List SectionData) (ts : List Song),
      loadSections env md l = .ok ts →
      ∀ s ∈ l, ∃ song, processSection env md s = .ok song := by
  intro l
  induction l with
  | nil => intro ts _ s hs; simp at hs
  | cons s rest ih =>
    intro ts hok x hx
    rcases hps : processSection env md s with e | song
    · rw [loadSections, hps] at hok; exact absurd hok (by simp)
    · rcases List.mem_cons.mp hx with rfl | hx'
      · exact ⟨song, hps⟩
      · rw [loadSections, hps] at hok
        rcases hrest : loadSections env md rest with e | songs
        · rw [hrest] at hok; exact absurd hok (by simp)
        · exact ih songs hrest x hx'

theorem loadSongConfigs_ok_elim (env : Env) (cf md : String)
    (cfg : List SectionData) (ts : List Song)
    (h : loadSongConfigs env cf md cfg = .ok ts) :
    env.isFile cf = true ∧ strEndsWith (strToLower cf) ".ini" = true ∧
    env.isDir md = true ∧ loadSections env md cfg = .ok ts := by
  unfold loadSongConfigs at h
  rcases h1 : env.isFile cf with _ | _
  · rw [h1] at h; simp at h
  · rw [h1] at h
    rcases h2 : strEndsWith (strToLower cf) ".ini" with _ | _
    · rw [h2] at h; simp at h
    · rw [h2] at h
      rcases h3 : env.isDir md with _ | _
      · rw [h3] at h; simp at h
      · rw [h3] at h
        simp at h
        exact ⟨rfl, rfl, rfl, h⟩

theorem loadSongConfigs_of_valid (env : Env) (cf md : String)
    (cfg : List SectionData)
    (hfile : env.isFile cf = true)
    (hini : strEndsWith (strToLower cf) ".ini" = true)
    (hdir : env.isDir md = true)
    (hsec : ∀ s ∈ cfg, sectionValid env md s = true) :
    loadSongConfigs env cf md cfg = .ok (cfg.map (songOfSection md)) := by
  unfold loadSongConfigs
  rw [if_neg (by rw [hfile]; simp), if_neg (by rw [hini]; simp),
    if_neg (by rw [hdir]; simp)]
  exact loadSections_of_ok env md cfg
    (fun s hs => processSection_valid env md s (hsec s hs))

/-! ### Category-dictionary lemmas -/

theorem dictGet_appendAt (k : String) (s : Song) (c : String) :
    ∀ m, dictGet (appendAt m k s) c =
      if c = k then (dictGet m c).map (fun L => L ++ [s]) else dictGet m c := by
  intro m
  induction m with
  | nil => by_cases h : c = k <;> simp [appendAt, dictGet, h]
  | cons p rest ih =>
    have hstep : appendAt (p :: rest) k s =
        (if p.1 = k then (p.1, p.2 ++ [s]) else p) :: appendAt rest k s := by
      simp [appendAt]
    rw [hstep]
    by_cases hpk : p.1 = k
    · rw [if_pos hpk]
      by_cases hcp : p.1 = c
      · subst hcp
        simp [dictGet, if_pos hpk, hpk]
      · simp only [dictGet, if_neg hcp, ih]
    · rw [if_neg hpk]
      by_cases hcp : p.1 = c
      · subst hcp
        have hck : ¬ p.1 = k := hpk
        simp [dictGet, hck]
      · simp only [dictGet, if_neg hcp, ih]

theorem dictGet_mapKeys (c : String) :
    ∀ ks : List String,
      dictGet (ks.map (fun k => (k, ([] : List Song)))) c =
        if c ∈ ks then some [] else none := by
  intro ks
  induction ks with
  | nil => simp [dictGet]
  | cons a rest ih =>
    by_cases hac : a = c
    · subst hac
      simp [dictGet]
    · have hca : ¬ c = a := fun hh => hac hh.symm
      simp [dictGet, hac, hca, ih, List.mem_cons]

theorem mem_dedup_foldl (a : String) :
    ∀ (l acc : List String),
      (a ∈ l.foldl (fun acc x => if x ∈ acc then acc else acc ++ [x]) acc) ↔
        a ∈ acc ∨ a ∈ l := by
  intro l
  induction l with
  | nil => intro acc; simp
  | cons x rest ih =>
    intro acc
    simp only [List.foldl_cons]
    by_cases hx : x ∈ acc
    · rw [if_pos hx, ih acc]
      simp only [List.mem_cons]
      constructor
      · rintro (h | h)
        · exact Or.inl h
        · exact Or.inr (Or.inr h)
      · rintro (h | rfl | h)
        · exact Or.inl h
        · exact Or.inl hx
        · exact Or.inr h
    · rw [if_neg hx, ih (acc ++ [x])]
      simp only [List.mem_append, List.mem_cons, List.not_mem_nil, or_false]
      constructor
      · rintro ((h | rfl) | h)
        · exact Or.inl h
        · exact Or.inr (Or.inl rfl)
        · exact Or.inr (Or.inr h)
      · rintro (h | rfl | h)
        · exact Or.inl (Or.inl h)
        · exact Or.inl (Or.inr rfl)
        · exact Or.inr h

theorem mem_firstDedup (a : String) (l : List String) :
    a ∈ firstDedup l ↔ a ∈ l := by
  unfold firstDedup
  rw [mem_dedup_foldl]
  simp

theorem all_mem_catKeys (songs : List Song) : "all" ∈ catKeys songs := by
  unfold catKeys
  by_cases h : "all" ∈ firstDedup (songs.filterMap
      (fun s => if s.category = "" then none else some s.category))
  · simp [h]
  · simp [h]

theorem mem_catKeys_of (songs : List Song) (c : String) (hc : c ≠ "")
    (s : Song) (hs : s ∈ songs) (hcat : s.category = c) :
    c ∈ catKeys songs := by
  have hmem : c ∈ firstDedup (songs.filterMap
      (fun s => if s.category = "" then none else some s.category)) := by
    rw [mem_firstDedup, List.mem_filterMap]
    refine ⟨s, hs, ?_⟩
    rw [hcat, if_neg hc]
  unfold catKeys
  by_cases h : "all" ∈ firstDedup (songs.filterMap
      (fun s => if s.category = "" then none else some s.category))
  · simp only [if_pos h]
    exact hmem
  · simp only [if_neg h]
    exact List.mem_append_left _ hmem

theorem dictGet_catStep_all (m : List (String × List Song)) (s : Song)
    (L : List Song) (h : dictGet m "all" = some L) :
    dictGet (catStep m s) "all" = some (L ++ dupIfAll s) := by
  unfold catStep dupIfAll
  by_cases hcat : s.category = ""
  · rw [if_pos hcat, dictGet_appendAt, if_pos rfl, h]
    have : ¬ s.category = "all" := by rw [hcat]; intro hh; exact absurd hh (by decide)
    simp [this]
  · rw [if_neg hcat, dictGet_appendAt, if_pos rfl, dictGet_appendAt]
    by_cases hall : s.category = "all"
    · rw [if_pos hall.symm, h]
      simp [hall]
    · rw [if_neg (fun hh => hall hh.symm), h]
      simp [hall]

theorem dictGet_foldl_all :
    ∀ (l : List Song) (m : List (String × List Song)) (L : List Song),
      dictGet m "all" = some L →
      dictGet (l.foldl catStep m) "all" = some (L ++ allExpected l) := by
  intro l
  induction l with
  | nil => intro m L h; simp [allExpected, h]
  | cons s rest ih =>
    intro m L h
    simp only [List.foldl_cons]
    rw [ih _ _ (dictGet_catStep_all m s L h)]
    simp [allExpected, List.append_assoc]

theorem dictGet_catStep_cat (c : String) (hc1 : c ≠ "all") (hc2 : c ≠ "")
    (m : List (String × List Song)) (s : Song) (L : List Song)
    (h : dictGet m c = some L) :
    dictGet (catStep m s) c =
      some (L ++ (if s.category = c then [s] else [])) := by
  unfold catStep
  rw [dictGet_appendAt, if_neg hc1]
  by_cases hcat : s.category = ""
  · rw [if_pos hcat, h]
    have hne : ¬ s.category = c := by rw [hcat]; exact fun hh => hc2 hh.symm
    simp [hne]
  · rw [if_neg hcat, dictGet_appendAt]
    by_cases hsc : s.category = c
    · rw [if_pos hsc.symm, h]
      simp [hsc]
    · rw [if_neg (fun hh => hsc hh.symm), h]
      simp [hsc]

theorem dictGet_foldl_cat (c : String) (hc1 : c ≠ "all") (hc2 : c ≠ "") :
    ∀ (l : List Song) (m : List (String × List Song)) (L : List Song),
      dictGet m c = some L →
      dictGet (l.foldl catStep m) c =
        some (L ++ l.filter (fun s => s.category == c)) := by
  intro l
  induction l with
  | nil => intro m L h; simp [h]
  | cons s rest ih =>
    intro m L h
    simp only [List.foldl_cons]
    rw [ih _ _ (dictGet_catStep_cat c hc1 hc2 m s L h)]
    by_cases hsc : s.category = c
    · simp [List.filter_cons, hsc, List.append_assoc]
    · simp [List.filter_cons, hsc]

theorem dictGet_catStep_none (c : String) (hc1 : c ≠ "all")
    (m : List (String × List Song)) (s : Song) (h : dictGet m c = none) :
    dictGet (catStep m s) c = none := by
  unfold catStep
  rw [dictGet_appendAt, if_neg hc1]
  by_cases hcat : s.category = ""
  · rw [if_pos hcat]; exact h
  · rw [if_neg hcat, dictGet_appendAt]
    by_cases hsc : c = s.category
    · rw [if_pos hsc, h]; rfl
    · rw [if_neg hsc]; exact h

theorem dictGet_foldl_none (c : String) (hc1 : c ≠ "all") :
    ∀ (l : List Song) (m : List (String × List Song)),
      dictGet m c = none → dictGet (l.foldl catStep m) c = none := by
  intro l
  induction l with
  | nil => intro m h; exact h
  | cons s rest ih =>
    intro m h
    simp only [List.foldl_cons]
    exact ih _ (dictGet_catStep_none c hc1 m s h)

theorem bucket_all_eq (songs : List Song) :
    bucket songs "all" = allExpected songs := by
  unfold bucket buildCats
  have hinit : dictGet ((catKeys songs).map (fun k => (k, ([] : List Song))))
      "all" = some [] := by
    rw [dictGet_mapKeys, if_pos (all_mem_catKeys songs)]
  rw [dictGet_foldl_all songs _ [] hinit]
  simp

theorem bucket_cat_eq (songs : List Song) (c : String) (hc1 : c ≠ "all")
    (hc2 : c ≠ "") :
    bucket songs c = songs.filter (fun s => s.category == c) := by
  unfold bucket buildCats
  by_cases hmem : c ∈ catKeys songs
  · have hinit : dictGet ((catKeys songs).map (fun k => (k, ([] : List Song))))
        c = some [] := by
      rw [dictGet_mapKeys, if_pos hmem]
    rw [dictGet_foldl_cat c hc1 hc2 songs _ [] hinit]
    simp
  · have hinit : dictGet ((catKeys songs).map (fun k => (k, ([] : List Song))))
        c = none := by
      rw [dictGet_mapKeys, if_neg hmem]
    rw [dictGet_foldl_none c hc1 songs _ hinit]
    have hfil : songs.filter (fun s => s.category == c) = [] := by
      rw [List.filter_eq_nil_iff]
      intro s hs hcat
      exact hmem (mem_catKeys_of songs c hc2 s hs (beq_iff_eq.mp hcat))
    simp [hfil]

theorem allExpected_eq_self (songs : List Song)
    (h : ∀ s ∈ songs, s.category ≠ "all") : allExpected songs = songs := by
  induction songs with
  | nil => rfl
  | cons s rest ih =>
    have hs : s.category ≠ "all" := h s (by simp)
    rw [allExpected, dupIfAll, if_neg hs, ih (fun x hx => h x (by simp [hx]))]
    rfl

theorem length_le_allExpected : ∀ l : List Song,
    l.length ≤ (allExpected l).length := by
  intro l
  induction l with
  | nil => simp [allExpected]
  | cons s rest ih =>
    rw [allExpected, List.length_append, dupIfAll]
    by_cases h : s.category = "all" <;> simp [h] <;> omega

theorem length_lt_allExpected (songs : List Song) (t : Song) (ht : t ∈ songs)
    (hcat : t.category = "all") : songs.length < (allExpected songs).length := by
  induction songs with
  | nil => simp at ht
  | cons s rest ih =>
    rw [allExpected, List.length_append, dupIfAll]
    rcases List.mem_cons.mp ht with rfl | ht'
    · have := length_le_allExpected rest
      simp [hcat]
      omega
    · have := ih ht'
      have h1 : 1 ≤ (if s.category = "all" then [s, s] else [s]).length := by
        by_cases h : s.category = "all" <;> simp [h]
      simp only [List.length_cons]
      omega

theorem two_le_count_allExpected (songs : List Song) (t : Song) (ht : t ∈ songs)
    (hcat : t.category = "all") : 2 ≤ (allExpected songs).count t := by
  induction songs with
  | nil => simp at ht
  | cons s rest ih =>
    rw [allExpected, List.count_append]
    rcases List.mem_cons.mp ht with rfl | ht'
    · have h2 : (dupIfAll t).count t = 2 := by
        rw [dupIfAll, if_pos hcat]
        simp
      omega
    · have := ih ht'
      omega

end MPlayer

namespace MPlayer

/-! ### Concrete fixtures for witnesses and counterexamples -/

/-- A small filesystem: the config and two assets exist, `music` is a dir. -/
def envDisk : Env :=
  { isFile := fun p => p == "c.ini" || p == "music/a.wav" || p == "music/b.wav"
    isDir := fun p => p == "music" }

/-- Spec §8 example entry: `filename=a.wav, title="Theme", key=q`. -/
def secTheme : SectionData :=
  { name := "s1"
    options := [("filename", "a.wav"), ("title", "\"Theme\""), ("key", "q")] }

/-- Spec §8 example entry: `filename=b.wav, title=Boss, key=w, category=boss`. -/
def secBoss : SectionData :=
  { name := "s2"
    options := [("filename", "b.wav"), ("title", "Boss"), ("key", "w"),
      ("category", "boss")] }

/-- The spec §8 example config. -/
def cfgExample : List SectionData := [secTheme, secBoss]

/-- Two entries claiming the same hotkey `q`. -/
def secDupA : SectionData :=
  { name := "s1"
    options := [("filename", "a.wav"), ("title", "A"), ("key", "q")] }

/-- Second entry claiming hotkey `q`. -/
def secDupB : SectionData :=
  { name := "s2"
    options := [("filename", "b.wav"), ("title", "B"), ("key", "q")] }

/-- A config with a duplicated hotkey. -/
def cfgDup : List SectionData := [secDupA, secDupB]

/-- An entry with a negative `timecode`. -/
def secNegTc : SectionData :=
  { name := "s1"
    options := [("filename", "a.wav"), ("title", "T"), ("timecode", "-5")] }

/-- An entry with no `timecode` option. -/
def secNoTc : SectionData :=
  { name := "s1", options := [("filename", "a.wav"), ("title", "T")] }

/-- The track `secNoTc` loads to. -/
def songNoTc : Song :=
  { filepath := "music/a.wav", title := "T", artist := "Unknown Artist"
    timecode := 0, key := "", category := "" }

/-- An entry whose asset does not exist on `envDisk`. -/
def secMissingAsset : SectionData :=
  { name := "s1", options := [("filename", "nope.wav"), ("title", "T")] }

/-- An entry that omits `title` and also references a missing asset. -/
def secNoTitleMissing : SectionData :=
  { name := "s1", options := [("filename", "zzz.wav")] }

/-- An entry that omits `filename`. -/
def secNoFilename : SectionData :=
  { name := "s1", options := [("title", "T")] }

/-- A track whose own category is the literal string `all`. -/
def trackAllCat : Song :=
  { filepath := "p", title := "t", artist := "a", timecode := 0
    key := "", category := "all" }

/-- An uncategorized track. -/
def songPlainA : Song :=
  { filepath := "music/a.wav", title := "A", artist := "Unknown Artist"
    timecode := 0, key := "q", category := "" }

/-- A `boss`-category track. -/
def songBossB : Song :=
  { filepath := "music/b.wav", title := "B", artist := "Unknown Artist"
    timecode := 0, key := "w", category := "boss" }

/-- A two-track roster with no literal `all` category. -/
def pairSongs : List Song := [songPlainA, songBossB]

/-- A track in category `c`. -/
def mkCatSong (c : String) : Song :=
  { filepath := "p", title := "t", artist := "a", timecode := 0
    key := "", category := c }

/-- Nine tracks in nine distinct categories, so the dict has ten keys. -/
def tenCatSongs : List Song :=
  (["c1", "c2", "c3", "c4", "c5", "c6", "c7", "c8", "c9"]).map mkCatSong

/-- Discriminator for the missing-option error kind. -/
def isMissingOpt : LoadError → Bool
  | .missingOption _ _ => true
  | _ => false

end MPlayer

namespace MPlayer

/-! ### Claim theorems -/

/-- C1, counterexample to the claim as stated: with the trace
fail, fail, succeed, `_play` performs a second recovery attempt (attempt
index 2) and succeeds, so the recovery is not capped at one retry and a
second failure is not fatal. -/
theorem c1_counterexample :
    playAttempts [false, false, true] = some 2 ∧ ¬ (2 ≤ 1) := by
  constructor
  · rfl
  · decide

/-- C1 (amended): `_play` retries without bound. For every outcome trace,
it hands control back exactly at the first succeeding attempt, however
many failures precede it — `playAttempts o = some n` iff attempt `n`
succeeds and every earlier attempt fails; persistent failure is never
surfaced as a fatal error after one retry. -/
theorem c1_play_retry_unbounded (o : List Bool) :
    ∀ n : Nat, playAttempts o = some n ↔
      o.get? n = some true ∧ ∀ m, m < n → o.get? m = some false := by
  induction o with
  | nil => intro n; simp [playAttempts]
  | cons b rest ih =>
    intro n
    cases b
    · simp only [playAttempts, Bool.false_eq_true, if_false, Option.map_eq_some']
      cases n with
      | zero =>
        simp only [List.get?_cons_zero]
        constructor
        · rintro ⟨k, _, hk⟩
          omega
        · rintro ⟨hfalse, _⟩
          simp at hfalse
      | succ k =>
        simp only [List.get?_cons_succ]
        constructor
        · rintro ⟨j, hj, hjk⟩
          rw [show j = k from by omega] at hj
          obtain ⟨h1, h2⟩ := (ih k).mp hj
          refine ⟨h1, ?_⟩
          intro m hm
          cases m with
          | zero => rfl
          | succ m' =>
            simp only [List.get?_cons_succ]
            exact h2 m' (by omega)
        · rintro ⟨h1, h2⟩
          refine ⟨k, (ih k).mpr ⟨h1, ?_⟩, rfl⟩
          intro m hm
          have := h2 (m + 1) (by omega)
          simpa using this
    · simp only [playAttempts, if_true]
      cases n with
      | zero =>
        simp
      | succ k =>
        simp only [List.get?_cons_succ]
        constructor
        · intro h
          simp at h
        · rintro ⟨_, h2⟩
          have := h2 0 (by omega)
          simp at this

/-- C2, counterexample to the claim as stated: a config whose two entries
both claim hotkey `q` loads successfully — no `DuplicateHotkey` error
exists anywhere in `_load_song_configs`. -/
theorem c2_counterexample :
    trackKey secDupA = trackKey secDupB ∧ trackKey secDupA ≠ "" ∧
    loadSongConfigs envDisk "c.ini" "music" cfgDup =
      .ok [{ filepath := "music/a.wav", title := "A", artist := "Unknown Artist",
             timecode := 0, key := "q", category := "" },
           { filepath := "music/b.wav", title := "B", artist := "Unknown Artist",
             timecode := 0, key := "q", category := "" }] := by
  refine ⟨rfl, ?_, rfl⟩
  decide

/-- C2 (amended): the loader performs no duplicate-hotkey detection.  A
config that passes the checks the code does make (existing files, INI
extension, required keys, parseable timecode, unreserved hotkeys) loads
successfully even when two distinct entries claim the same non-empty
hotkey. -/
theorem c2_load_accepts_duplicate_hotkeys (env : Env) (cf md : String)
    (cfg : List SectionData)
    (hfile : env.isFile cf = true)
    (hini : strEndsWith (strToLower cf) ".ini" = true)
    (hdir : env.isDir md = true)
    (hsec : ∀ s ∈ cfg, sectionValid env md s = true)
    (_hdup : ∃ s1 ∈ cfg, ∃ s2 ∈ cfg, s1 ≠ s2 ∧
      trackKey s1 = trackKey s2 ∧ trackKey s1 ≠ "") :
    loadSongConfigs env cf md cfg = .ok (cfg.map (songOfSection md)) :=
  loadSongConfigs_of_valid env cf md cfg hfile hini hdir hsec

/-- Witness for C2's amended theorem at the duplicated-`q` config. -/
theorem c2_witness :
    (trackKey secDupA = trackKey secDupB ∧ secDupA ≠ secDupB) ∧
    loadSongConfigs envDisk "c.ini" "music" cfgDup =
      .ok (cfgDup.map (songOfSection "music")) :=
  ⟨⟨rfl, by decide⟩,
    c2_load_accepts_duplicate_hotkeys envDisk "c.ini" "music" cfgDup
      (by decide) (by decide) (by decide) (by decide)
      ⟨secDupA, by decide, secDupB, by decide, by decide, rfl, by decide⟩⟩

/-- C3: `_play_random` on an empty bucket (unknown category, or `all` over
an empty roster) raises `ValueError` from `randint(0, -1)` before any
transport command is issued; the exception is surfaced to the caller and
the Playback State is untouched. -/
theorem c3_play_random_empty_bucket (k : Nat) (songs : List Song)
    (category : String) (st : PlaybackState)
    (h : filterByCategory songs category = []) :
    playRandomStep k songs category st = (st, .error .valueError) := by
  simp [playRandomStep, playRandom, h, randint]

/-- Witness for C3 at the empty roster with category `all`. -/
theorem c3_witness :
    filterByCategory [] "all" = [] ∧
    playRandomStep 0 [] "all" { loaded := none, playing := false } =
      ({ loaded := none, playing := false }, .error .valueError) :=
  ⟨rfl, c3_play_random_empty_bucket 0 [] "all"
    { loaded := none, playing := false } rfl⟩

/-- C4: loading is atomic — under any of the failure conditions (missing
config file, non-INI extension, missing asset directory, or any section
whose processing raises: missing asset, reserved hotkey, ...) the loader
raises and the caller observes no Tracks at all. -/
theorem c4_load_atomic (env : Env) (cf md : String) (cfg : List SectionData)
    (h : env.isFile cf = false ∨ strEndsWith (strToLower cf) ".ini" = false ∨
      env.isDir md = false ∨
      ∃ s ∈ cfg, ∀ song, processSection env md s ≠ .ok song) :
    (∃ e, loadSongConfigs env cf md cfg = .error e) ∧
    ∀ ts, loadSongConfigs env cf md cfg ≠ .ok ts := by
  have herr : ∃ e, loadSongConfigs env cf md cfg = .error e := by
    rcases hf : env.isFile cf with _ | _
    · exact ⟨.fileNotFound cf, by simp [loadSongConfigs, hf]⟩
    · rcases hi : strEndsWith (strToLower cf) ".ini" with _ | _
      · exact ⟨.valueErrorIni, by simp [loadSongConfigs, hf, hi]⟩
      · rcases hd : env.isDir md with _ | _
        · exact ⟨.notADirectory md, by simp [loadSongConfigs, hf, hi, hd]⟩
        · rcases h with h | h | h | h
          · rw [hf] at h; exact absurd h (by simp)
          · rw [hi] at h; exact absurd h (by simp)
          · rw [hd] at h; exact absurd h (by simp)
          · obtain ⟨e, he⟩ := loadSections_err env md cfg h
            exact ⟨e, by simp [loadSongConfigs, hf, hi, hd, he]⟩
  refine ⟨herr, ?_⟩
  obtain ⟨e, he⟩ := herr
  intro ts hts
  rw [hts] at he
  exact Except.noConfusion he

/-- Witness for C4 at a config referencing a missing asset file. -/
theorem c4_witness :
    processSection envDisk "music" secMissingAsset =
      .error (.fileNotFound "music/nope.wav") ∧
    ((∃ e, loadSongConfigs envDisk "c.ini" "music" [secMissingAsset] =
        .error e) ∧
      ∀ ts, loadSongConfigs envDisk "c.ini" "music" [secMissingAsset] ≠
        .ok ts) := by
  refine ⟨rfl, c4_load_atomic envDisk "c.ini" "music" [secMissingAsset]
    (Or.inr (Or.inr (Or.inr ⟨secMissingAsset, by simp, ?_⟩)))⟩
  intro song hok
  have hps : processSection envDisk "music" secMissingAsset =
      .error (.fileNotFound "music/nope.wav") := rfl
  rw [hps] at hok
  exact Except.noConfusion hok

/-- C5: a fully valid config (existing INI config file, existing asset
directory, every referenced asset present, required keys present,
parseable timecodes, no reserved and no duplicate hotkeys) loads to
exactly one Track per section, in file order, with the §3 defaults
(`Unknown Artist`, timecode 0, empty key, empty category) applied and
surrounding quotes stripped — `songOfSection` is that per-section Track. -/
theorem c5_load_valid_config (env : Env) (cf md : String)
    (cfg : List SectionData)
    (hfile : env.isFile cf = true)
    (hini : strEndsWith (strToLower cf) ".ini" = true)
    (hdir : env.isDir md = true)
    (hsec : ∀ s ∈ cfg, sectionValid env md s = true)
    (_hnodup : ((cfg.map trackKey).filter (fun k => !(k == ""))).Nodup) :
    loadSongConfigs env cf md cfg = .ok (cfg.map (songOfSection md)) :=
  loadSongConfigs_of_valid env cf md cfg hfile hini hdir hsec

/-- Witness for C5 at the spec §8 two-section example, with the loaded
Tracks spelled out (quotes stripped, defaults applied, file order). -/
theorem c5_witness :
    (∀ s ∈ cfgExample, sectionValid envDisk "music" s = true) ∧
    cfgExample.map (songOfSection "music") =
      [{ filepath := "music/a.wav", title := "Theme",
         artist := "Unknown Artist", timecode := 0, key := "q",
         category := "" },
       { filepath := "music/b.wav", title := "Boss",
         artist := "Unknown Artist", timecode := 0, key := "w",
         category := "boss" }] ∧
    loadSongConfigs envDisk "c.ini" "music" cfgExample =
      .ok (cfgExample.map (songOfSection "music")) :=
  ⟨by decide, rfl,
    c5_load_valid_config envDisk "c.ini" "music" cfgExample
      (by decide) (by decide) (by decide) (by decide) (by decide)⟩

/-- C6, counterexample to the claim as stated: a roster of one track whose
own category is the literal `all` produces an `all` bucket of size 2, not
the total track count 1. -/
theorem c6_counterexample :
    trackAllCat.category = "all" ∧
    (bucket [trackAllCat] "all").length ≠ ([trackAllCat] : List Song).length := by
  refine ⟨rfl, ?_⟩
  decide

/-- C6 (amended): provided no track's category is the literal string
`all`, the `all` bucket is exactly the roster in original order (each
track once), and every other non-empty category's bucket is exactly the
subsequence of tracks carrying that category, in the same relative
order. -/
theorem c6_bucket_structure (songs : List Song)
    (h : ∀ s ∈ songs, s.category ≠ "all") :
    bucket songs "all" = songs ∧
    ∀ c, c ≠ "all" → c ≠ "" →
      bucket songs c = songs.filter (fun s => s.category == c) := by
  constructor
  · rw [bucket_all_eq, allExpected_eq_self songs h]
  · intro c hc1 hc2
    exact bucket_cat_eq songs c hc1 hc2

/-- Witness for C6's amended theorem at a two-track roster. -/
theorem c6_witness :
    (∀ s ∈ pairSongs, s.category ≠ "all") ∧
    bucket pairSongs "all" = pairSongs ∧
    bucket pairSongs "boss" = pairSongs.filter (fun s => s.category == "boss") :=
  ⟨by decide, (c6_bucket_structure pairSongs (by decide)).1,
    (c6_bucket_structure pairSongs (by decide)).2 "boss" (by decide) (by decide)⟩

/-- C7, counterexample to the claim as stated: a config entry with
`timecode = -5` loads successfully into a Track with negative
startOffset. -/
theorem c7_counterexample :
    loadSongConfigs envDisk "c.ini" "music" [secNegTc] =
      .ok [{ filepath := "music/a.wav", title := "T",
             artist := "Unknown Artist", timecode := -5, key := "",
             category := "" }] ∧
    ¬ ((0 : Int) ≤ -5) := by
  refine ⟨rfl, ?_⟩
  decide

/-- C7 (amended): the loaded `timecode` is 0 when the option is absent,
and otherwise exactly the integer the config specifies — any integer,
negative included; the loader performs no sign validation. -/
theorem c7_timecode_unvalidated (env : Env) (md : String) (s : SectionData)
    (song : Song) (h : processSection env md s = .ok song) :
    (getOpt s "timecode" = none → song.timecode = 0) ∧
    (∀ v, getOpt s "timecode" = some v → pyInt v = some song.timecode) := by
  rcases hf : getOpt s "filename" with _ | f
  · simp only [processSection, hf] at h
    exact absurd h (by simp)
  simp only [processSection, hf] at h
  by_cases hfile : env.isFile (pathJoin md f) = false
  · rw [if_pos hfile] at h; exact absurd h (by simp)
  rw [if_neg hfile] at h
  rcases ht : getOpt s "title" with _ | t
  · simp only [ht] at h
    exact absurd h (by simp)
  simp only [ht] at h
  rcases hm : (match getOpt s "timecode" with
    | none => some (0 : Int)
    | some v => pyInt v) with _ | tc
  · simp only [hm] at h
    exact absurd h (by simp)
  simp only [hm] at h
  by_cases hres : stripQuotes ((getOpt s "key").getD "") ∈ reservedKeys
  · rw [if_pos hres] at h; exact absurd h (by simp)
  rw [if_neg hres] at h
  have heq := Except.ok.inj h
  have hsong : song.timecode = tc := by rw [← heq]
  constructor
  · intro hnone
    rw [hnone] at hm
    have h0 : some (0 : Int) = some tc := hm
    rw [hsong, ← Option.some.inj h0]
  · intro v hv
    rw [hv] at hm
    rw [hsong]
    exact hm

/-- Witness for C7's amended theorem at an entry with no timecode. -/
theorem c7_witness :
    (processSection envDisk "music" secNoTc = .ok songNoTc ∧
      getOpt secNoTc "timecode" = none) ∧
    songNoTc.timecode = 0 :=
  ⟨⟨rfl, rfl⟩,
    (c7_timecode_unvalidated envDisk "music" secNoTc songNoTc rfl).1 rfl⟩

/-- C8, counterexample to the claim as stated: with ten categories the
code binds ten selector tokens — the tenth is the two-key sequence `10`,
outside the claimed `1`..`9` range, and no category is left unbound or
warned about. -/
theorem c8_counterexample :
    (selectorBindings tenCatSongs).length = 10 ∧
    ("10", "all") ∈ selectorBindings tenCatSongs ∧
    "10" ∉ ["1", "2", "3", "4", "5", "6", "7", "8", "9"] := by
  refine ⟨by decide, by decide, by decide⟩

/-- C8 (amended): the selector-binding loop binds exactly one token per
category dict key, in dict order, the `n`-th key receiving token
`str(n+1)` — with no cap at 9 and no warning for the excess. -/
theorem c8_selector_bindings_unbounded (songs : List Song) :
    (selectorBindings songs).map Prod.snd = catKeys songs ∧
    (selectorBindings songs).map Prod.fst =
      (List.range (catKeys songs).length).map (fun n => toString (n + 1)) := by
  constructor
  · rw [selectorBindings, List.map_map]
    have hcomp : (Prod.snd ∘ fun p : Nat × String => (toString (p.1 + 1), p.2)) =
        Prod.snd := by
      funext p; rfl
    rw [hcomp, List.enum_map_snd]
  · rw [selectorBindings, List.map_map]
    have h1 : (Prod.fst ∘ fun p : Nat × String => (toString (p.1 + 1), p.2)) =
        (fun n => toString (n + 1)) ∘ Prod.fst := by
      funext p; rfl
    rw [h1, ← List.map_map]
    congr 1
    rw [List.enum_map_fst]

/-- C9: a track whose own category field is the literal `all` is appended
to the `all` bucket twice — once by the per-category append and once by
the unconditional append — so it occurs at least twice there and the
`all` bucket is strictly larger than the roster. -/
theorem c9_all_bucket_double (songs : List Song) (t : Song) (ht : t ∈ songs)
    (hcat : t.category = "all") :
    2 ≤ (bucket songs "all").count t ∧
    songs.length < (bucket songs "all").length := by
  rw [bucket_all_eq]
  exact ⟨two_le_count_allExpected songs t ht hcat,
    length_lt_allExpected songs t ht hcat⟩

/-- Witness for C9 at the one-track roster with category `all`. -/
theorem c9_witness :
    (trackAllCat ∈ [trackAllCat] ∧ trackAllCat.category = "all") ∧
    (2 ≤ (bucket [trackAllCat] "all").count trackAllCat ∧
      ([trackAllCat] : List Song).length < (bucket [trackAllCat] "all").length) :=
  ⟨⟨by decide, rfl⟩, c9_all_bucket_double [trackAllCat] trackAllCat (by decide) rfl⟩

/-- C10, counterexample to the claim as stated: a section that omits
`title` but also references a missing asset fails with
`FileNotFoundError` — the taxonomy's `AssetNotFound`, not a
missing-option parse error. -/
theorem c10_counterexample :
    getOpt secNoTitleMissing "title" = none ∧
    loadSongConfigs envDisk "c.ini" "music" [secNoTitleMissing] =
      .error (.fileNotFound "music/zzz.wav") ∧
    isMissingOpt (.fileNotFound "music/zzz.wav") = false :=
  ⟨rfl, rfl, rfl⟩

/-- C10 (amended): a config with a section omitting `filename`, or
omitting `title` while its asset exists, never loads any Tracks; the
offending section itself raises the missing-option parse error
(`configparser.NoOptionError`), which is outside the spec's error
taxonomy.  (When the section omits `title` and its asset is also missing,
the asset check fires first and the error is `AssetNotFound` instead.) -/
theorem c10_missing_required_key (env : Env) (cf md : String)
    (cfg : List SectionData) (s : SectionData) (hs : s ∈ cfg)
    (h : getOpt s "filename" = none ∨
      (∃ f, getOpt s "filename" = some f ∧ env.isFile (pathJoin md f) = true ∧
        getOpt s "title" = none)) :
    (∀ ts, loadSongConfigs env cf md cfg ≠ .ok ts) ∧
    ∃ key, processSection env md s = .error (.missingOption s.name key) := by
  have hfail : ∃ key, processSection env md s =
      .error (.missingOption s.name key) := by
    rcases h with hf | ⟨f, hf, hfile, ht⟩
    · exact ⟨"filename", by simp [processSection, hf]⟩
    · refine ⟨"title", ?_⟩
      simp only [processSection, hf]
      rw [if_neg (by rw [hfile]; simp), ht]
  refine ⟨?_, hfail⟩
  intro ts hts
  obtain ⟨_, _, _, hsecs⟩ := loadSongConfigs_ok_elim env cf md cfg ts hts
  obtain ⟨song, hsong⟩ := loadSections_ok_mem env md cfg ts hsecs s hs
  obtain ⟨key, hkey⟩ := hfail
  rw [hkey] at hsong
  exact Except.noConfusion hsong

/-- Witness for C10's amended theorem at a section omitting `filename`. -/
theorem c10_witness :
    getOpt secNoFilename "filename" = none ∧
    ((∀ ts, loadSongConfigs envDisk "c.ini" "music" [secNoFilename] ≠ .ok ts) ∧
      ∃ key, processSection envDisk "music" secNoFilename =
        .error (.missingOption secNoFilename.name key)) :=
  ⟨rfl, c10_missing_required_key envDisk "c.ini" "music" [secNoFilename]
    secNoFilename (by simp) (Or.inl rfl)⟩

end MPlayer
